import Mathlib

/-!
Verification development for the realtime audio relay gateway
(`main.go` of the realtime-proxy repository).

The Go source is shallowly embedded: strings of bytes are `List Nat`
(each element a byte value `< 256`), Go channels become explicit FIFO
queues, and the per-session goroutines become pure functions or an
explicit step relation.  All definitions are translated from `main.go`
and the Go standard library functions it calls; definitions that model
behaviour the specification documents but the code does not implement
are marked `Modelled from the spec` in their doc comment.
-/

namespace RealtimeProxy

/-!
Base64 (Go `encoding/base64`, `StdEncoding`): the code calls
`base64.StdEncoding.EncodeToString` on inbound client audio and
`base64.StdEncoding.DecodeString` on upstream `delta` payloads.
Strings are modelled as their byte sequences (`List Nat`).
-/

/-- Byte values of Go's `encodeStd` alphabet
`ABCDEFGHIJKLMNOPQRSTUVWXYZabcdefghijklmnopqrstuvwxyz0123456789+/`. -/
def b64Alphabet : List Nat :=
  [65, 66, 67, 68, 69, 70, 71, 72, 73, 74, 75, 76, 77, 78, 79, 80, 81, 82,
   83, 84, 85, 86, 87, 88, 89, 90,
   97, 98, 99, 100, 101, 102, 103, 104, 105, 106, 107, 108, 109, 110, 111,
   112, 113, 114, 115, 116, 117, 118, 119, 120, 121, 122,
   48, 49, 50, 51, 52, 53, 54, 55, 56, 57, 43, 47]

/-- The alphabet byte encoding a 6-bit group (Go `enc.encode` table lookup). -/
def b64Char (k : Nat) : Nat := b64Alphabet.getD k 0

/-- Position of a byte in the alphabet (Go's `decodeMap`); `none` for bytes
that are not alphabet members (Go decode error). -/
def b64Index (b : Nat) : Option Nat :=
  go b b64Alphabet
where
  go (b : Nat) : List Nat → Option Nat
    | [] => none
    | a :: r => if a = b then some 0 else (go b r).map (· + 1)

/-- Go `base64.StdEncoding.EncodeToString`: three input bytes become four
alphabet bytes; a final one- or two-byte remainder is padded with `=` (byte
61). -/
def b64EncodeBytes : List Nat → List Nat
  | [] => []
  | [b0] => [b64Char (b0 / 4), b64Char (b0 % 4 * 16), 61, 61]
  | [b0, b1] =>
      [b64Char (b0 / 4), b64Char (b0 % 4 * 16 + b1 / 16),
       b64Char (b1 % 16 * 4), 61]
  | b0 :: b1 :: b2 :: rest =>
      b64Char (b0 / 4) :: b64Char (b0 % 4 * 16 + b1 / 16) ::
      b64Char (b1 % 16 * 4 + b2 / 64) :: b64Char (b2 % 64) ::
      b64EncodeBytes rest

/-- Go `base64.StdEncoding.DecodeString`: input is consumed in four-byte
quanta; `=` (byte 61) may appear only as padding of the final quantum, any
byte outside the alphabet is an error, and (as in Go's non-strict default)
trailing bits covered by padding are ignored.  (Go additionally skips the
bytes `\r` and `\n`; no caller in this program produces them.) -/
def b64DecodeBytes : List Nat → Option (List Nat)
  | [] => some []
  | c0 :: c1 :: c2 :: c3 :: rest =>
      (b64Index c0).bind fun s0 =>
      (b64Index c1).bind fun s1 =>
      if c2 = 61 then
        if c3 = 61 ∧ rest = [] then some [s0 * 4 + s1 / 16] else none
      else
        (b64Index c2).bind fun s2 =>
        if c3 = 61 then
          if rest = [] then
            some [s0 * 4 + s1 / 16, s1 % 16 * 16 + s2 / 4]
          else none
        else
          (b64Index c3).bind fun s3 =>
          (b64DecodeBytes rest).map fun t =>
            (s0 * 4 + s1 / 16) :: (s1 % 16 * 16 + s2 / 4) ::
            (s2 % 4 * 64 + s3) :: t
  | _ => none

lemma b64Index_b64Char : ∀ k, k < 64 → b64Index (b64Char k) = some k := by
  decide

lemma b64Char_ne_pad : ∀ k, k < 64 → b64Char k ≠ 61 := by
  decide

/-- Decoding inverts encoding on byte sequences. -/
theorem b64_decode_encode :
    ∀ bs : List Nat, (∀ b ∈ bs, b < 256) →
      b64DecodeBytes (b64EncodeBytes bs) = some bs
  | [], _ => rfl
  | [b0], h => by
      have hb0 : b0 < 256 := h b0 (by simp)
      have k0 : b0 / 4 < 64 := by omega
      have k1 : b0 % 4 * 16 < 64 := by omega
      simp [b64EncodeBytes, b64DecodeBytes, Option.bind,
        b64Index_b64Char _ k0, b64Index_b64Char _ k1]
      omega
  | [b0, b1], h => by
      have hb0 : b0 < 256 := h b0 (by simp)
      have hb1 : b1 < 256 := h b1 (by simp)
      have k0 : b0 / 4 < 64 := by omega
      have k1 : b0 % 4 * 16 + b1 / 16 < 64 := by omega
      have k2 : b1 % 16 * 4 < 64 := by omega
      simp [b64EncodeBytes, b64DecodeBytes, Option.bind,
        b64Index_b64Char _ k0, b64Index_b64Char _ k1, b64Index_b64Char _ k2,
        b64Char_ne_pad _ k2]
      omega
  | b0 :: b1 :: b2 :: rest, h => by
      have hb0 : b0 < 256 := h b0 (by simp)
      have hb1 : b1 < 256 := h b1 (by simp)
      have hb2 : b2 < 256 := h b2 (by simp)
      have ih := b64_decode_encode rest
        (fun b hb => h b (by simp [hb]))
      have k0 : b0 / 4 < 64 := by omega
      have k1 : b0 % 4 * 16 + b1 / 16 < 64 := by omega
      have k2 : b1 % 16 * 4 + b2 / 64 < 64 := by omega
      have k3 : b2 % 64 < 64 := by omega
      simp [b64EncodeBytes, b64DecodeBytes, Option.bind,
        b64Index_b64Char _ k0, b64Index_b64Char _ k1, b64Index_b64Char _ k2,
        b64Index_b64Char _ k3, b64Char_ne_pad _ k2, b64Char_ne_pad _ k3, ih]
      omega

/-!
Egress scheduler (`WSWriter` in `main.go`): a control lane (`controlCh`,
an unbuffered channel — the queue below models the FIFO line of senders
blocked on it), a bounded audio lane (`audioCh`, `make(chan []byte, 4)`),
and a heartbeat ticker, all served by the single goroutine `loop`.
Marshalled messages are byte sequences.
-/

/-- Marshalled outbound message bytes. -/
abbrev Msg := List Nat

/-- Capacity of `audioCh` (`make(chan []byte, 4)` in `NewWSWriter`). -/
def audioCap : Nat := 4

/-- Queue state of one `WSWriter`: pending control messages (FIFO) and the
buffered audio channel contents (FIFO). -/
structure WSWriter where
  controlQ : List Msg
  audioQ : List Msg

/-- `WSWriter.SendControl`: `w.controlCh <- b` — the message joins the
control lane unconditionally (the Go send blocks the caller until the loop
takes it; nothing is ever discarded). -/
def SendControl (w : WSWriter) (m : Msg) : WSWriter :=
  { w with controlQ := w.controlQ ++ [m] }

/-- `WSWriter.SendAudio`: non-blocking send into `audioCh`; on a full
buffer the oldest element is received and discarded (`<-w.audioCh`) and the
new message is sent. -/
def SendAudio (w : WSWriter) (m : Msg) : WSWriter :=
  if w.audioQ.length < audioCap then { w with audioQ := w.audioQ ++ [m] }
  else { w with audioQ := w.audioQ.tail ++ [m] }

/-- One unit written to the upstream socket by `WSWriter.loop`. -/
inductive Wire
  | ctrl (m : Msg)
  | audio (m : Msg)
  | ping

/-- Whole-scheduler state: the queues, the sequence already written to the
socket, and (ghost) the control messages submitted so far. -/
structure Sys where
  w : WSWriter
  wire : List Wire
  subCtrl : List Msg

/-- Interleaved small-step semantics of the producers and of
`WSWriter.loop`.  The loop body is one `select` over `ctx.Done()`,
`w.controlCh`, `w.audioCh` and `ticker.C`; per Go's `select` semantics a
single *ready* case is chosen by uniform pseudo-random selection, so every
ready case is a possible step — the textual order of the cases (and the
source comment claiming control priority) confers no precedence.  The
ticker can be ready at any time, hence `servePing` is unconditional. -/
inductive Step : Sys → Sys → Prop
  | sendControl (s : Sys) (m : Msg) :
      Step s ⟨SendControl s.w m, s.wire, s.subCtrl ++ [m]⟩
  | sendAudio (s : Sys) (m : Msg) :
      Step s ⟨SendAudio s.w m, s.wire, s.subCtrl⟩
  | serveCtrl (s : Sys) (m : Msg) (rest : List Msg) :
      s.w.controlQ = m :: rest →
      Step s ⟨⟨rest, s.w.audioQ⟩, s.wire ++ [Wire.ctrl m], s.subCtrl⟩
  | serveAudio (s : Sys) (m : Msg) (rest : List Msg) :
      s.w.audioQ = m :: rest →
      Step s ⟨⟨s.w.controlQ, rest⟩, s.wire ++ [Wire.audio m], s.subCtrl⟩
  | servePing (s : Sys) :
      Step s ⟨s.w, s.wire ++ [Wire.ping], s.subCtrl⟩

/-- Scheduler state at session start (`NewWSWriter`): both lanes empty,
nothing written. -/
def initSys : Sys := ⟨⟨[], []⟩, [], []⟩

/-- States the scheduler can actually be in during a session. -/
def Reachable (s : Sys) : Prop := Relation.ReflTransGen Step initSys s

/-- Control messages among the wire writes, in write order. -/
def ctrlWrites : List Wire → List Msg
  | [] => []
  | Wire.ctrl m :: r => m :: ctrlWrites r
  | Wire.audio _ :: r => ctrlWrites r
  | Wire.ping :: r => ctrlWrites r

lemma ctrlWrites_append (xs ys : List Wire) :
    ctrlWrites (xs ++ ys) = ctrlWrites xs ++ ctrlWrites ys := by
  induction xs with
  | nil => rfl
  | cons x r ih => cases x <;> simp [ctrlWrites, ih]

lemma reachable_ctrl_inv (s : Sys) (h : Reachable s) :
    ctrlWrites s.wire ++ s.w.controlQ = s.subCtrl := by
  induction h with
  | refl => rfl
  | @tail b c hr st ih =>
      cases st with
      | sendControl m =>
          simp only [SendControl]
          rw [← List.append_assoc, ih]
      | sendAudio m =>
          simp only [SendAudio]
          split <;> simpa using ih
      | serveCtrl m rest hq =>
          simp only [ctrlWrites_append, ctrlWrites]
          rw [← ih, hq]
          simp
      | serveAudio m rest hq =>
          simp only [ctrlWrites_append, ctrlWrites]
          simpa using ih
      | servePing =>
          simp only [ctrlWrites_append, ctrlWrites]
          simpa using ih

lemma reachable_audio_le (s : Sys) (h : Reachable s) :
    s.w.audioQ.length ≤ audioCap := by
  induction h with
  | refl => simp [initSys]
  | @tail b c hr st ih =>
      cases st with
      | sendControl m => simpa [SendControl] using ih
      | sendAudio m =>
          simp only [SendAudio]
          unfold audioCap at *
          split <;> rename_i hcond <;>
            simp only [List.length_append, List.length_cons, List.length_nil,
              List.length_tail] <;>
            omega
      | serveCtrl m rest hq => simpa using ih
      | serveAudio m rest hq =>
          have hlen : b.w.audioQ.length = rest.length + 1 := by rw [hq]; rfl
          simp only
          omega
      | servePing => simpa using ih

/-!
Upstream receiver (the goroutine in `handleClientWS` that reads from the
AI-service socket): each read either fails (which cancels the session) or
yields bytes; the bytes are JSON-decoded into an event whose `type` and
`delta` string fields drive the dispatch.  `pretty` stands for the
`json.MarshalIndent` rendering forwarded verbatim on `error` events.
-/

/-- Decoded upstream JSON event, reduced to the fields `handleClientWS`
reads: `t, _ := evt["type"].(string)` and `delta, _ := evt["delta"].(string)`
(each `""` when absent or not a string), plus the `MarshalIndent` bytes. -/
structure UpEvt where
  typ : String
  delta : List Nat
  pretty : List Nat

/-- Result of `json.Unmarshal` on one upstream socket message: `malformed`
when unmarshalling fails, otherwise the decoded event. -/
inductive UpMsg
  | malformed
  | evt (e : UpEvt)

/-- One message written to the client socket (`clientConn.WriteMessage`). -/
inductive ClientWrite
  | text (b : List Nat)
  | binary (b : List Nat)

/-- Dispatch on `evt["type"]` in the receiver goroutine: `error` forwards
the pretty-printed event as a text message; `response.output_audio.delta`
base64-decodes `delta` and, on success, writes the raw PCM bytes as a
binary message (on failure it logs and continues); `response.done` and
every other type only log. -/
def handleUpEvt (e : UpEvt) : List ClientWrite :=
  if e.typ = "error" then [ClientWrite.text e.pretty]
  else if e.typ = "response.output_audio.delta" then
    match b64DecodeBytes e.delta with
    | some pcm => [ClientWrite.binary pcm]
    | none => []
  else []

/-- Client writes produced by one upstream socket message (a failed
`json.Unmarshal` logs and continues with no write). -/
def receiverStep : UpMsg → List ClientWrite
  | UpMsg.malformed => []
  | UpMsg.evt e => handleUpEvt e

/-- One iteration's input of the receiver loop: a successful
`openaiConn.ReadMessage` carrying a message, or a read error. -/
inductive ReadResult
  | ok (m : UpMsg)
  | readErr

/-- The receiver loop over a sequence of reads: a read error calls
`cancel()` and returns (second component `true`, nothing further is
processed); otherwise the message's writes are emitted and the loop
continues.  No event-dispatch branch ever exits the loop. -/
def runReceiver : List ReadResult → List ClientWrite × Bool
  | [] => ([], false)
  | ReadResult.readErr :: _ => ([], true)
  | ReadResult.ok m :: r =>
      (receiverStep m ++ (runReceiver r).1, (runReceiver r).2)

lemma runReceiver_skip (m : UpMsg) (hm : receiverStep m = []) :
    ∀ xs ys, runReceiver (xs ++ ReadResult.ok m :: ys) =
      runReceiver (xs ++ ys) := by
  intro xs ys
  induction xs with
  | nil => simp [runReceiver, hm]
  | cons x r ih =>
      cases x with
      | ok m2 => simp [runReceiver, ih]
      | readErr => simp [runReceiver]

/-!
Client reader (the main loop of `handleClientWS`): binary frames become
`input_audio_buffer.append` events sent through `SendAudio` (the audio
lane); the text commands `clear`, `cancel`, `force` become control events
sent through `SendControl`; any other text is only logged.
-/

/-- One frame read from the client socket, classified by `msgType`. -/
inductive ClientMsg
  | binary (data : List Nat)
  | text (cmd : String)

/-- Which `WSWriter` lane an upstream-bound event is submitted to. -/
inductive UpLane
  | control
  | audio

/-- Upstream events built by the client reader, abstracting the
`openAIEvent` map literals of the source. -/
inductive UpEvent
  | append (audio : List Nat)
  | clear
  | cancelResponse
  | createResponse

/-- The JSON `type` discriminant each constructed event carries. -/
def UpEvent.typeStr : UpEvent → String
  | UpEvent.append _ => "input_audio_buffer.append"
  | UpEvent.clear => "input_audio_buffer.clear"
  | UpEvent.cancelResponse => "response.cancel"
  | UpEvent.createResponse => "response.create"

/-- The client-to-upstream mapping of the reader loop's switch: a binary
frame yields one `append` event with base64-encoded payload on the audio
lane; `clear`, `cancel`, `force` yield one control event each; any other
text command yields nothing (logged only). -/
def translateClient : ClientMsg → Option (UpLane × UpEvent)
  | ClientMsg.binary data =>
      some (UpLane.audio, UpEvent.append (b64EncodeBytes data))
  | ClientMsg.text cmd =>
      if cmd = "clear" then some (UpLane.control, UpEvent.clear)
      else if cmd = "cancel" then some (UpLane.control, UpEvent.cancelResponse)
      else if cmd = "force" then some (UpLane.control, UpEvent.createResponse)
      else none

/-!
Downstream framing documented by the repository's frontend protocol
documentation but absent from `main.go` (used below to exhibit that the
code writes unframed bytes).
-/

/-- Modelled from the spec: the 8 little-endian bytes of a generation
value, as required by the documented downstream binary format (missing
from the code, which has no generation state at all). -/
def u64LE (g : Nat) : List Nat :=
  [g % 256, g / 256 % 256, g / 256 ^ 2 % 256, g / 256 ^ 3 % 256,
   g / 256 ^ 4 % 256, g / 256 ^ 5 % 256, g / 256 ^ 6 % 256,
   g / 256 ^ 7 % 256]

/-- Modelled from the spec: the framed-mode downstream binary message
`[1 byte tag 0x01][8 bytes generation, little-endian][PCM payload]`
(missing from the code, which writes the bare PCM payload). -/
def specFrame (gen : Nat) (pcm : List Nat) : List Nat :=
  1 :: (u64LE gen ++ pcm)

lemma specFrame_length (gen : Nat) (pcm : List Nat) :
    (specFrame gen pcm).length = 9 + pcm.length := by
  simp [specFrame, u64LE]
  omega

/-!
Claim theorems.
-/

/-- Claim C1: the claim says framed-mode outbound audio is written as
`[tag 0x01][8-byte little-endian generation][PCM]`.  The code has no mode
flag (the `raw` query parameter is never read) and no generation state:
for a `response.output_audio.delta` event carrying the base64 encoding of
the bytes `[10, 20, 30]`, the receiver writes exactly those three bytes to
the client, which cannot equal the 12-byte documented frame for any
generation value. -/
theorem delta_written_unframed :
    receiverStep (UpMsg.evt
      ⟨"response.output_audio.delta", b64EncodeBytes [10, 20, 30], []⟩) =
      [ClientWrite.binary [10, 20, 30]] ∧
    ∀ gen : Nat, [10, 20, 30] ≠ specFrame gen [10, 20, 30] := by
  constructor
  · have hd := b64_decode_encode [10, 20, 30] (by decide)
    simp [receiverStep, handleUpEvt, hd]
  · intro gen hcontra
    have hlen := congrArg List.length hcontra
    rw [specFrame_length] at hlen
    simp at hlen

/-- Claim C2: the claim says outbound generation values are non-decreasing
and that `advance()` increments a tracker.  The code defines no generation
tracker and no `advance` at all, and attaches no generation to any
outbound audio: the write produced for a delta carrying the bytes `[7, 7]`
is the bare two-byte payload, which carries no generation field (it is not
the documented generation-tagged frame for any generation value). -/
theorem delta_carries_no_generation :
    receiverStep (UpMsg.evt
      ⟨"response.output_audio.delta", b64EncodeBytes [7, 7], []⟩) =
      [ClientWrite.binary [7, 7]] ∧
    ∀ gen : Nat, [7, 7] ≠ specFrame gen [7, 7] := by
  constructor
  · have hd := b64_decode_encode [7, 7] (by decide)
    simp [receiverStep, handleUpEvt, hd]
  · intro gen hcontra
    have hlen := congrArg List.length hcontra
    rw [specFrame_length] at hlen
    simp at hlen

/-- Claim C3: in every reachable scheduler state, the control messages
already written to the socket, followed by the control messages still
queued, are exactly the submitted control messages in submission order —
so every `sendControl` submission is queued (never dropped) and control
messages reach the socket in exactly their submission order. -/
theorem control_lane_fifo_no_drop (s : Sys) (h : Reachable s) :
    ctrlWrites s.wire ++ s.w.controlQ = s.subCtrl :=
  reachable_ctrl_inv s h

/-- Scheduler state after submitting one control message and serving it. -/
def c3Demo : Sys := ⟨⟨[], []⟩, [Wire.ctrl [9]], [[9]]⟩

lemma c3Demo_reachable : Reachable c3Demo := by
  have h1 : Step initSys ⟨⟨[[9]], []⟩, [], [[9]]⟩ :=
    Step.sendControl initSys [9]
  have h2 : Step ⟨⟨[[9]], []⟩, [], [[9]]⟩ c3Demo :=
    Step.serveCtrl ⟨⟨[[9]], []⟩, [], [[9]]⟩ [9] [] rfl
  exact Relation.ReflTransGen.tail
    (Relation.ReflTransGen.tail Relation.ReflTransGen.refl h1) h2

/-- Witness for C3 at a concrete reachable state. -/
theorem control_lane_fifo_no_drop_witness :
    ctrlWrites c3Demo.wire ++ c3Demo.w.controlQ = c3Demo.subCtrl :=
  control_lane_fifo_no_drop c3Demo c3Demo_reachable

/-- Claim C4: in every reachable scheduler state the audio lane holds at
most `audioCap` items, and `SendAudio` on a full lane drops exactly the
oldest queued item (the head) and appends the new one, leaving the lane
exactly full. -/
theorem audio_lane_bounded_evicts_oldest (s : Sys) (h : Reachable s)
    (m : Msg) :
    s.w.audioQ.length ≤ audioCap ∧
    (s.w.audioQ.length = audioCap →
      (SendAudio s.w m).audioQ = s.w.audioQ.tail ++ [m] ∧
      (SendAudio s.w m).audioQ.length = audioCap) := by
  refine ⟨reachable_audio_le s h, fun hfull => ?_⟩
  have hnl : ¬ s.w.audioQ.length < audioCap := by omega
  refine ⟨by simp [SendAudio, hnl], ?_⟩
  simp [SendAudio, hnl, List.length_tail]
  unfold audioCap at *
  omega

/-- Scheduler state with the audio lane exactly full. -/
def c4Demo : Sys := ⟨⟨[], [[1], [2], [3], [4]]⟩, [], []⟩

lemma c4Demo_reachable : Reachable c4Demo := by
  have h1 : Step initSys ⟨⟨[], [[1]]⟩, [], []⟩ :=
    Step.sendAudio initSys [1]
  have h2 : Step ⟨⟨[], [[1]]⟩, [], []⟩ ⟨⟨[], [[1], [2]]⟩, [], []⟩ :=
    Step.sendAudio ⟨⟨[], [[1]]⟩, [], []⟩ [2]
  have h3 : Step ⟨⟨[], [[1], [2]]⟩, [], []⟩
      ⟨⟨[], [[1], [2], [3]]⟩, [], []⟩ :=
    Step.sendAudio ⟨⟨[], [[1], [2]]⟩, [], []⟩ [3]
  have h4 : Step ⟨⟨[], [[1], [2], [3]]⟩, [], []⟩ c4Demo :=
    Step.sendAudio ⟨⟨[], [[1], [2], [3]]⟩, [], []⟩ [4]
  exact Relation.ReflTransGen.tail (Relation.ReflTransGen.tail
    (Relation.ReflTransGen.tail
      (Relation.ReflTransGen.tail Relation.ReflTransGen.refl h1) h2) h3) h4

/-- Witness for C4: on the full lane `[[1],[2],[3],[4]]`, sending `[5]`
evicts exactly the oldest item and leaves the lane full. -/
theorem audio_lane_bounded_evicts_oldest_witness :
    (SendAudio c4Demo.w [5]).audioQ = [[2], [3], [4], [5]] ∧
    (SendAudio c4Demo.w [5]).audioQ.length = audioCap := by
  have h := (audio_lane_bounded_evicts_oldest c4Demo c4Demo_reachable [5]).2 rfl
  exact ⟨by rw [h.1]; rfl, h.2⟩

/-- Claim C5: the claim says an audio item is only written when the
control lane is empty.  In the reachable state `c5Both` with one pending
control message and one queued audio message, the loop's `select` (uniform
pseudo-random over ready cases, no priority) can take the audio case, so a
step writing the audio item while the control lane is non-empty is a
behaviour of the code. -/
theorem select_lacks_control_priority :
    Reachable (⟨⟨[[9]], [[8]]⟩, [], [[9]]⟩ : Sys) ∧
    (⟨⟨[[9]], [[8]]⟩, [], [[9]]⟩ : Sys).w.controlQ ≠ [] ∧
    Step (⟨⟨[[9]], [[8]]⟩, [], [[9]]⟩ : Sys)
      ⟨⟨[[9]], []⟩, [Wire.audio [8]], [[9]]⟩ := by
  refine ⟨?_, by simp, ?_⟩
  · have h1 : Step initSys ⟨⟨[[9]], []⟩, [], [[9]]⟩ :=
      Step.sendControl initSys [9]
    have h2 : Step ⟨⟨[[9]], []⟩, [], [[9]]⟩ ⟨⟨[[9]], [[8]]⟩, [], [[9]]⟩ :=
      Step.sendAudio ⟨⟨[[9]], []⟩, [], [[9]]⟩ [8]
    exact Relation.ReflTransGen.tail
      (Relation.ReflTransGen.tail Relation.ReflTransGen.refl h1) h2
  · exact Step.serveAudio ⟨⟨[[9]], [[8]]⟩, [], [[9]]⟩ [8] [] rfl

/-- Claim C6: the reader's switch maps a binary frame to exactly one
`input_audio_buffer.append` event with base64-encoded payload on the audio
lane, `cancel` to `response.cancel`, `clear` to
`input_audio_buffer.clear`, `force` to `response.create` (all control
lane), and any other text to no upstream event. -/
theorem client_translation (d : List Nat) (cmd : String)
    (h1 : cmd ≠ "clear") (h2 : cmd ≠ "cancel") (h3 : cmd ≠ "force") :
    translateClient (ClientMsg.binary d) =
      some (UpLane.audio, UpEvent.append (b64EncodeBytes d)) ∧
    (UpEvent.append (b64EncodeBytes d)).typeStr = "input_audio_buffer.append" ∧
    translateClient (ClientMsg.text "cancel") =
      some (UpLane.control, UpEvent.cancelResponse) ∧
    translateClient (ClientMsg.text "clear") =
      some (UpLane.control, UpEvent.clear) ∧
    translateClient (ClientMsg.text "force") =
      some (UpLane.control, UpEvent.createResponse) ∧
    translateClient (ClientMsg.text cmd) = none := by
  refine ⟨rfl, rfl, by simp [translateClient], rfl,
    by simp [translateClient], ?_⟩
  simp [translateClient, h1, h2, h3]

/-- Witness for C6 at a concrete frame and a concrete unrecognized text. -/
theorem client_translation_witness :
    translateClient (ClientMsg.binary [0]) =
      some (UpLane.audio, UpEvent.append (b64EncodeBytes [0])) ∧
    (UpEvent.append (b64EncodeBytes [0])).typeStr = "input_audio_buffer.append" ∧
    translateClient (ClientMsg.text "cancel") =
      some (UpLane.control, UpEvent.cancelResponse) ∧
    translateClient (ClientMsg.text "clear") =
      some (UpLane.control, UpEvent.clear) ∧
    translateClient (ClientMsg.text "force") =
      some (UpLane.control, UpEvent.createResponse) ∧
    translateClient (ClientMsg.text "hello") = none :=
  client_translation [0] "hello" (by decide) (by decide) (by decide)

/-- Claim C7: a malformed upstream unit — a message that fails JSON
decoding, or a delta event whose payload fails base64 decoding — produces
no client write, does not terminate the receiver loop, and leaves the
processing of every other read unchanged. -/
theorem malformed_unit_discarded (m : UpMsg)
    (h : m = UpMsg.malformed ∨
      ∃ e, m = UpMsg.evt e ∧ e.typ = "response.output_audio.delta" ∧
        b64DecodeBytes e.delta = none) :
    receiverStep m = [] ∧
    ∀ xs ys, runReceiver (xs ++ ReadResult.ok m :: ys) =
      runReceiver (xs ++ ys) := by
  have hm : receiverStep m = [] := by
    rcases h with h | ⟨e, he, ht, hd⟩
    · rw [h]; rfl
    · rw [he]
      simp [receiverStep, handleUpEvt, ht, hd]
  exact ⟨hm, runReceiver_skip m hm⟩

/-- Witness for C7: a non-JSON unit inserted before a well-formed event
changes nothing. -/
theorem malformed_unit_discarded_witness :
    receiverStep UpMsg.malformed = [] ∧
    runReceiver [ReadResult.ok UpMsg.malformed,
      ReadResult.ok (UpMsg.evt ⟨"response.done", [], []⟩)] =
    runReceiver [ReadResult.ok (UpMsg.evt ⟨"response.done", [], []⟩)] := by
  have h := malformed_unit_discarded UpMsg.malformed (Or.inl rfl)
  exact ⟨h.1, by
    simpa using h.2 [] [ReadResult.ok (UpMsg.evt ⟨"response.done", [], []⟩)]⟩

/-- Claim C8: an upstream `error` event is forwarded to the client as a
text message carrying the pretty-printed event, and the receiver loop
continues processing afterwards exactly as before (the event is never
fatal). -/
theorem error_event_forwarded_nonfatal (e : UpEvt) (h : e.typ = "error") :
    receiverStep (UpMsg.evt e) = [ClientWrite.text e.pretty] ∧
    ∀ rs, runReceiver (ReadResult.ok (UpMsg.evt e) :: rs) =
      (ClientWrite.text e.pretty :: (runReceiver rs).1, (runReceiver rs).2) := by
  have h1 : receiverStep (UpMsg.evt e) = [ClientWrite.text e.pretty] := by
    simp [receiverStep, handleUpEvt, h]
  refine ⟨h1, fun rs => ?_⟩
  simp [runReceiver, h1]

/-- Witness for C8 at a concrete error event. -/
theorem error_event_forwarded_nonfatal_witness :
    receiverStep (UpMsg.evt ⟨"error", [], [5]⟩) = [ClientWrite.text [5]] ∧
    runReceiver [ReadResult.ok (UpMsg.evt ⟨"error", [], [5]⟩)] =
      ([ClientWrite.text [5]], false) := by
  have h := error_event_forwarded_nonfatal ⟨"error", [], [5]⟩ rfl
  refine ⟨h.1, ?_⟩
  simpa [runReceiver] using h.2 []

/-- Claim C9: for every binary client frame with byte payload `d`, the
translator produces exactly one append event whose `audio` field is the
base64 encoding of `d`, and base64-decoding that field recovers exactly
`d` — the client-to-upstream audio relay is lossless. -/
theorem client_audio_roundtrip (d : List Nat) (h : ∀ b ∈ d, b < 256) :
    translateClient (ClientMsg.binary d) =
      some (UpLane.audio, UpEvent.append (b64EncodeBytes d)) ∧
    b64DecodeBytes (b64EncodeBytes d) = some d :=
  ⟨rfl, b64_decode_encode d h⟩

/-- Witness for C9 at a concrete payload. -/
theorem client_audio_roundtrip_witness :
    translateClient (ClientMsg.binary [0, 127, 255]) =
      some (UpLane.audio, UpEvent.append (b64EncodeBytes [0, 127, 255])) ∧
    b64DecodeBytes (b64EncodeBytes [0, 127, 255]) = some [0, 127, 255] :=
  client_audio_roundtrip [0, 127, 255] (by decide)

/-- Claim C10: every decoded upstream event whose type is neither `error`
nor `response.output_audio.delta` — `response.done`, speech-started / VAD
events, and any other type — produces no client write at all (so in
particular no interruption notice), and inserting it anywhere in the read
sequence leaves the receiver's entire behaviour unchanged. -/
theorem other_events_write_nothing (e : UpEvt)
    (h1 : e.typ ≠ "error") (h2 : e.typ ≠ "response.output_audio.delta") :
    receiverStep (UpMsg.evt e) = [] ∧
    ∀ xs ys, runReceiver (xs ++ ReadResult.ok (UpMsg.evt e) :: ys) =
      runReceiver (xs ++ ys) := by
  have hm : receiverStep (UpMsg.evt e) = [] := by
    simp [receiverStep, handleUpEvt, h1, h2]
  exact ⟨hm, runReceiver_skip _ hm⟩

/-- Witness for C10 at a concrete `response.done` event. -/
theorem other_events_write_nothing_witness :
    receiverStep (UpMsg.evt ⟨"response.done", [], []⟩) = [] ∧
    runReceiver [ReadResult.ok (UpMsg.evt ⟨"response.done", [], []⟩),
      ReadResult.ok UpMsg.malformed] =
      runReceiver [ReadResult.ok UpMsg.malformed] := by
  have h := other_events_write_nothing ⟨"response.done", [], []⟩
    (by decide) (by decide)
  exact ⟨h.1, by simpa using h.2 [] [ReadResult.ok UpMsg.malformed]⟩

end RealtimeProxy
